import Mathlib

/-!
Verification of the PDF content-analysis cache of `src/utils.py`
(class `PDFAnalyzer` and its helpers).

The Python code is embedded shallowly:

* Python strings are Lean `String`s; the string operations the code uses
  (`str.lower`, `str.count`, `in`, slicing, `str.startswith`, `os.path.basename`,
  `sorted`) are modelled by executable Lean functions over `String.data`
  (code points), matching Python semantics on the ASCII texts involved.
* The file system is a parameter `FS`: per-path modification time (`none`
  models a missing file / an `OSError` from `os.path.getmtime`), per-path
  size, directory existence, and a per-directory listing used by the two
  `glob` patterns.
* The external PDF loader (`PyMuPDFLoader.load`) is an oracle
  `load : String → Option (List (String × Option Nat))` returning the raw
  per-page texts with page numbers; `none` models a raised exception.
  The external splitter (`RecursiveCharacterTextSplitter.split_documents`)
  is an oracle `split` from raw pages to chunk list.  Both are functions,
  hence deterministic, as the real calls are for a fixed file content.
* `hashlib.md5` is modelled as an injective function: the cache key carries
  the pre-image string `f"{path}_{mtime}"` (resp. `path`) itself, and the
  composite analysis key keeps the file-key and the query as a pair, which
  is faithful because real md5 digests have a fixed 32-character length, so
  `key.startswith(file_digest)` holds exactly when the file-digest component
  matches.
* The two cache dicts are association lists with Python-dict semantics
  (first-match lookup of a unique key, in-place overwrite, append of new
  keys).
-/

namespace AutoDRP

/-! ## String operations (models of the Python primitives used by utils.py) -/

/-- Model of Python `str.lower` (ASCII case folding, as `Char.toLower`). -/
def lowerStr (s : String) : String :=
  String.mk (s.data.map Char.toLower)

/-- Model of Python slicing `s[:n]` (by code points). -/
def strTake (s : String) (n : Nat) : String :=
  String.mk (s.data.take n)

/-- Model of Python slicing `s[n:]` (by code points). -/
def strDrop (s : String) (n : Nat) : String :=
  String.mk (s.data.drop n)

/-- Model of Python `s.startswith(t)`. -/
def startsWithB (s t : String) : Bool :=
  t.data.isPrefixOf s.data

/-- Model of Python `s.endswith(t)`. -/
def endsWithB (s t : String) : Bool :=
  t.data.isSuffixOf s.data

/-- Substring test on char lists: does `needle` occur contiguously in `hay`?
Model of Python `needle in hay` for strings. -/
def containsSub : List Char → List Char → Bool
  | needle, [] => needle.isEmpty
  | needle, c :: t => needle.isPrefixOf (c :: t) || containsSub needle t

/-- Model of Python `needle in hay` for strings. -/
def substrB (needle hay : String) : Bool :=
  containsSub needle.data hay.data

/-- Helper for `pyCount`: scan the text left to right; after a match, skip the
remaining `needle.length - 1` characters so occurrences do not overlap, exactly
as Python `str.count` does. -/
def pyCountGo (needle : List Char) : Nat → List Char → Nat
  | _, [] => 0
  | n + 1, _ :: t => pyCountGo needle n t
  | 0, c :: t =>
      if needle.isPrefixOf (c :: t) then pyCountGo needle (needle.length - 1) t + 1
      else pyCountGo needle 0 t

/-- Model of Python `hay.count(needle)`: the number of non-overlapping
occurrences of `needle` in `hay`, scanning left to right (for an empty needle
Python returns `len(hay) + 1`). -/
def pyCount (hay needle : String) : Nat :=
  if needle.data.isEmpty then hay.data.length + 1
  else pyCountGo needle.data 0 hay.data

/-- Model of Python `os.path.basename`: the text after the last `/`. -/
def basename (p : String) : String :=
  String.mk ((p.data.reverse.takeWhile (fun c => c ≠ '/')).reverse)

/-- Code-point lexicographic order on char lists, as Python string `<=`. -/
def lexLeB : List Char → List Char → Bool
  | [], _ => true
  | _ :: _, [] => false
  | a :: as, b :: bs =>
      decide (a.toNat < b.toNat) || (decide (a.toNat = b.toNat) && lexLeB as bs)

/-- Code-point lexicographic order on strings, as Python string comparison. -/
def strLeB (a b : String) : Bool :=
  lexLeB a.data b.data

/-- Model of Python `sorted` on strings: a sorted permutation under the
code-point lexicographic order.  Python's `sorted` is stable, but equal keys
here are equal strings, so any sorted permutation is the same list. -/
def sortStrings (l : List String) : List String :=
  List.insertionSort (fun a b => strLeB a b = true) l

/-- Model of Python `os.path.join(base, p)` for a relative `p`. -/
def joinPath (base p : String) : String :=
  if endsWithB base "/" then base ++ p else base ++ "/" ++ p

/-- Model of Python `s.replace('\n', ' ')` (single-character pattern). -/
def replaceNewlines (s : String) : String :=
  String.mk (s.data.map (fun c => if c = '\n' then ' ' else c))

/-- Model of Python `s.strip()`: drop whitespace from both ends. -/
def stripStr (s : String) : String :=
  String.mk (((s.data.dropWhile Char.isWhitespace).reverse.dropWhile
    Char.isWhitespace).reverse)

/-! ## File-system model -/

/-- The ambient file system, as observed by `utils.py` through `os` and `glob`.
A directory listing entry is the component list of a path relative to the
searched directory (for example `["sub", "a.pdf"]` stands for `sub/a.pdf`). -/
structure FS where
  /-- `os.path.exists` on the searched directory. -/
  dirExists : String → Bool
  /-- `os.path.getmtime`; `none` models a missing file (an `OSError`), and a
  file is taken to exist for `os.path.exists` exactly when it has an mtime. -/
  mtime : String → Option Nat
  /-- `os.path.getsize`. -/
  size : String → Nat
  /-- All entries below a directory, as relative component paths. -/
  listing : String → List (List String)

/-- Does the relative path avoid hidden components?  Python `glob` never
matches files or directories whose name starts with a dot. -/
def hiddenFree (comps : List String) : Bool :=
  comps.all (fun c => !(startsWithB c "."))

/-- Match for the recursive pattern `{dir}/**/*.pdf` with `recursive=True`:
`**` matches zero or more (non-hidden) directories, and `*.pdf` a non-hidden
name ending in `.pdf`, at any depth including the top level. -/
def matchRecursivePdf (comps : List String) : Bool :=
  !comps.isEmpty && hiddenFree comps && endsWithB (comps.getLastD "") ".pdf"

/-- Match for the non-recursive pattern `{dir}/*.pdf`: a non-hidden top-level
name ending in `.pdf`. -/
def matchTopPdf (comps : List String) : Bool :=
  comps.length == 1 && hiddenFree comps && endsWithB (comps.getLastD "") ".pdf"

/-- Turn a relative component path into the path string `glob` returns. -/
def globPath (dir : String) (comps : List String) : String :=
  dir ++ "/" ++ String.intercalate "/" comps

/-- Embedding of `PDFAnalyzer.find_pdf_files` (utils.py lines 94-104):
empty list when the directory does not exist, otherwise the results of the
two glob patterns concatenated and sorted. -/
def findPdfFiles (fs : FS) (searchDir : String) : List String :=
  if !fs.dirExists searchDir then []
  else
    sortStrings
      (((fs.listing searchDir).filter matchRecursivePdf).map (globPath searchDir) ++
       ((fs.listing searchDir).filter matchTopPdf).map (globPath searchDir))

/-- Embedding of `PDFAnalyzer.auto_find_pdf` (utils.py lines 106-131).
`none` for the identifier models Python `None`; `some ""` is likewise falsy.
The three `for` loops returning the first hit are `List.find?`. -/
def autoFindPdf (fs : FS) (searchDir : String) (pdfIdentifier : Option String) :
    Option String :=
  let pdfFiles := findPdfFiles fs searchDir
  if pdfFiles.isEmpty then none
  else
    let ident := pdfIdentifier.getD ""
    if ident = "" then pdfFiles.head?
    else
      match pdfFiles.find? (fun p => basename p == ident) with
      | some p => some p
      | none =>
        match pdfFiles.find? (fun p => substrB (lowerStr ident) (lowerStr (basename p))) with
        | some p => some p
        | none => pdfFiles.find? (fun p => substrB (lowerStr ident) (lowerStr p))

/-- Embedding of `PDFAnalyzer._resolve_pdf_path` (utils.py lines 133-147).
`baseDir` is `self.base_dir` (`"./models"` by default). -/
def resolvePdfPath (fs : FS) (baseDir : String) (pdfPath : Option String) :
    Option String :=
  let p := pdfPath.getD ""
  if p = "" then autoFindPdf fs baseDir none
  else
    let p :=
      if startsWithB p "/" then p
      else if startsWithB p "./models/" || startsWithB p "models/" then p
      else joinPath baseDir p
    if (fs.mtime p).isSome then some p
    else autoFindPdf fs baseDir (some (basename p))

/-! ## Cache keys and cache state -/

/-- Embedding of `PDFAnalyzer._get_file_cache_key` (utils.py lines 149-157):
`md5(f"{path}_{mtime}")` when the file has an mtime, `md5(path)` when
`os.path.getmtime` raises.  md5 is modelled as injective, so the key carries
the pre-image string itself. -/
def fileCacheKey (fs : FS) (path : String) : String :=
  match fs.mtime path with
  | some t => path ++ "_" ++ toString t
  | none => path

/-- Embedding of `PDFAnalyzer._is_cache_valid` (utils.py lines 159-162). -/
def isCacheValid (fs : FS) (path : String) (cacheKey : String) : Bool :=
  fileCacheKey fs path == cacheKey

/-- Association-list lookup with Python-dict semantics (`d[k]`, `k in d`). -/
def alookup {κ ν : Type} [DecidableEq κ] (k : κ) : List (κ × ν) → Option ν
  | [] => none
  | e :: t => if e.1 = k then some e.2 else alookup k t

/-- Association-list store with Python-dict semantics (`d[k] = v`): overwrite
in place if the key is present, append otherwise. -/
def ainsert {κ ν : Type} [DecidableEq κ] (k : κ) (v : ν) (l : List (κ × ν)) :
    List (κ × ν) :=
  if (alookup k l).isSome then l.map (fun e => if e.1 = k then (k, v) else e)
  else l ++ [(k, v)]

/-- A chunk produced by `process_pdf`: a langchain `Document` carrying the
metadata written at utils.py lines 204-209 plus the optional page number the
loader put there. -/
structure Doc where
  page_content : String
  source_file : String
  chunk_index : Nat
  total_chunks : Nat
  page : Option Nat
deriving DecidableEq

/-- Result of `extract_metadata` (utils.py lines 164-183): either the metadata
dict or the `{'error': ...}` dict from the `except` branch. -/
inductive MetaResult where
  | ok (file_path : String) (file_size : Nat) (num_pages : Nat)
      (extraction_time : Nat) (preview : Option String)
  | err (msg : String)
deriving DecidableEq

/-- One `(keyword, count)` entry of `keyword_matches`. -/
structure KeywordMatch where
  keyword : String
  count : Nat
deriving DecidableEq

/-- One category entry of `content_summary` (utils.py lines 303-307). -/
structure CategoryScore where
  relevance_score : Nat
  keyword_matches : List KeywordMatch
  confidence : ℚ
deriving DecidableEq

/-- One entry of `extracted_sections` (utils.py lines 312-317). -/
structure SectionInfo where
  chunk_index : Nat
  page : Option Nat
  preview : String
  length : Nat
deriving DecidableEq

/-- One entry of `query_analysis.relevant_chunks` (utils.py lines 330-333). -/
structure QueryChunk where
  chunk_index : Nat
  relevance_snippet : String
deriving DecidableEq

/-- The `query_analysis` sub-dict (utils.py lines 321-333). -/
structure QueryAnalysis where
  query : String
  relevant_chunks : List QueryChunk
deriving DecidableEq

/-- The analysis dict built by `analyze_content` (utils.py lines 269-333). -/
structure AnalysisResult where
  source_file : String
  metadata : MetaResult
  total_chunks : Nat
  content_summary : List (String × CategoryScore)
  extracted_sections : List SectionInfo
  analysis_status : String
  query_analysis : Option QueryAnalysis
deriving DecidableEq

/-- Outcome of `analyze_content`: the analysis dict, or one of the
`{"error": ...}` dicts. -/
inductive AnalysisOutcome where
  | err (msg : String)
  | ok (r : AnalysisResult)
deriving DecidableEq

/-- The two cache dicts of a `PDFAnalyzer` instance (utils.py lines 91-92).
The analysis-cache key models `f"{file_digest}_{md5(query)}"` as the pair of
the file key and the query: real digests have a fixed length, so the pair
components are recoverable from the concatenation. -/
structure AnalyzerState where
  analysis_cache : List ((String × String) × AnalysisResult)
  documents_cache : List (String × List Doc)
deriving DecidableEq

/-- The empty caches of a fresh `PDFAnalyzer`. -/
def initState : AnalyzerState := ⟨[], []⟩

/-! ## process_pdf and extract_metadata -/

/-- The raw pages an external `PyMuPDFLoader.load` returns: page text and the
page number metadata.  `none` models a raised exception. -/
def RawPages := List (String × Option Nat)

/-- The metadata annotation loop of `process_pdf` (utils.py lines 204-209). -/
def annotateChunks (path : String) (raw : List (String × Option Nat)) : List Doc :=
  raw.enum.map (fun ic =>
    { page_content := ic.2.1
      source_file := path
      chunk_index := ic.1
      total_chunks := raw.length
      page := ic.2.2 })

/-- The load-split-annotate-cache block of `process_pdf`
(utils.py lines 198-214); on an exception (`load` is `none`) the `except`
branch returns `[]` without caching. -/
def processCompute (load : String → Option (List (String × Option Nat)))
    (split : List (String × Option Nat) → List (String × Option Nat))
    (cacheKey : String) (st : AnalyzerState) (path : String) :
    List Doc × AnalyzerState :=
  match load path with
  | none => ([], st)
  | some raw =>
    let processed := annotateChunks path (split raw)
    (processed, { st with documents_cache := ainsert cacheKey processed st.documents_cache })

/-- Embedding of `PDFAnalyzer.process_pdf` (utils.py lines 185-218).  Note the
cache lookup uses the key freshly computed from the current mtime, and the
`_is_cache_valid` check recomputes that same key, so the `del` branch is dead
in a single-threaded run. -/
def processPdf (fs : FS) (load : String → Option (List (String × Option Nat)))
    (split : List (String × Option Nat) → List (String × Option Nat))
    (st : AnalyzerState) (path : String) : List Doc × AnalyzerState :=
  let cacheKey := fileCacheKey fs path
  match alookup cacheKey st.documents_cache with
  | some cached =>
    if isCacheValid fs path cacheKey then (cached, st)
    else
      processCompute load split cacheKey
        { st with documents_cache := st.documents_cache.filter (fun e => !(e.1 == cacheKey)) }
        path
  | none => processCompute load split cacheKey st path

/-- Embedding of `PDFAnalyzer.extract_metadata` (utils.py lines 164-183);
`now` models `datetime.now().isoformat()`. -/
def extractMetadata (fs : FS) (load : String → Option (List (String × Option Nat)))
    (now : Nat) (path : String) : MetaResult :=
  match load path with
  | none => .err "Failed to extract metadata"
  | some docs =>
    .ok path (fs.size path) docs.length now
      (match docs with
       | [] => none
       | d :: _ => some (stripStr (replaceNewlines (strTake d.1 300))))

/-! ## Content classification -/

/-- The category table of `analyze_content` (utils.py lines 279-288). -/
def categories : List (String × List String) :=
  [("architecture", ["architecture", "model", "framework", "structure", "design",
      "network", "layer"]),
   ("methodology", ["method", "approach", "algorithm", "technique", "procedure",
      "pipeline"]),
   ("preprocessing", ["preprocessing", "preprocess", "data preparation", "cleaning",
      "normalization", "feature"]),
   ("hyperparameters", ["hyperparameter", "parameter", "learning rate", "batch size",
      "epoch", "optimizer"]),
   ("dependencies", ["import", "library", "package", "requirement", "dependency",
      "framework"]),
   ("implementation", ["code", "implementation", "function", "class", "module",
      "script"]),
   ("evaluation", ["evaluation", "metrics", "performance", "accuracy", "validation",
      "testing"]),
   ("results", ["results", "findings", "conclusion", "outcome", "performance",
      "benchmark"])]

/-- The confidence normalization `min(relevance_score / 10.0, 1.0)` of
utils.py line 306, over exact rationals. -/
def confidenceOf (relevanceScore : Nat) : ℚ :=
  min ((relevanceScore : ℚ) / 10) 1

/-- The per-category keyword loop of `analyze_content`
(utils.py lines 293-307): count every keyword in the content text, collect the
positive counts, sum them, and normalize the confidence. -/
def classifyCategory (contentText : String) (keywords : List String) : CategoryScore :=
  let folded := keywords.foldl
    (fun (acc : List KeywordMatch × Nat) kw =>
      let count := pyCount contentText kw
      if count > 0 then (acc.1 ++ [⟨kw, count⟩], acc.2 + count) else acc)
    ([], 0)
  { relevance_score := folded.2
    keyword_matches := folded.1
    confidence := confidenceOf folded.2 }

/-- The content text of utils.py line 291:
`" ".join(doc.page_content for doc in documents).lower()`. -/
def contentTextOf (chunks : List String) : String :=
  lowerStr (String.intercalate " " chunks)

/-- The section-extraction loop of `analyze_content` (utils.py lines 309-318):
walk the first 10 chunks, keep those longer than 200 characters, emit the
200-character preview (with ellipsis) and the original length. -/
def extractSections (documents : List Doc) : List SectionInfo :=
  (documents.take 10).enum.filterMap (fun id =>
    if 200 < id.2.page_content.length then
      some { chunk_index := id.1
             page := id.2.page
             preview := strTake id.2.page_content 200 ++ "..."
             length := id.2.page_content.length }
    else none)

/-- The query-specific analysis of utils.py lines 320-333: present only for a
non-empty query; scans every chunk for a case-insensitive substring match. -/
def queryAnalysisOf (documents : List Doc) (query : String) : Option QueryAnalysis :=
  if query = "" then none
  else
    some { query := query
           relevant_chunks := documents.enum.filterMap (fun id =>
             if substrB (lowerStr query) (lowerStr id.2.page_content) then
               some { chunk_index := id.1
                      relevance_snippet := strTake id.2.page_content 300 ++ "..." }
             else none) }

/-- The analysis dict assembled by `analyze_content` on a cache miss
(utils.py lines 269-333). -/
def buildAnalysis (resolved : String) (metadata : MetaResult)
    (documents : List Doc) (query : String) : AnalysisResult :=
  { source_file := resolved
    metadata := metadata
    total_chunks := documents.length
    content_summary :=
      categories.map (fun ck => (ck.1, classifyCategory
        (contentTextOf (documents.map (fun d => d.page_content))) ck.2))
    extracted_sections := extractSections documents
    analysis_status := "completed"
    query_analysis := queryAnalysisOf documents query }

/-! ## analyze_content -/

/-- The metadata-process-build-cache block of `analyze_content`
(utils.py lines 261-338), shared by the miss path and the (dead) staleness
path. -/
def analyzeCompute (fs : FS) (load : String → Option (List (String × Option Nat)))
    (split : List (String × Option Nat) → List (String × Option Nat))
    (now : Nat) (resolved : String) (queryCacheKey : String × String)
    (query : String) (st : AnalyzerState) : AnalysisOutcome × AnalyzerState :=
  let metadata := extractMetadata fs load now resolved
  let pr := processPdf fs load split st resolved
  if pr.1.isEmpty then (.err "Processing failed", pr.2)
  else
    let result := buildAnalysis resolved metadata pr.1 query
    (.ok result,
     { pr.2 with analysis_cache := ainsert queryCacheKey result pr.2.analysis_cache })

/-- Embedding of `PDFAnalyzer.analyze_content` (utils.py lines 241-341).
As in `process_pdf`, the cache lookup uses the freshly computed key, so the
staleness-eviction branch (utils.py lines 255-259) is dead in a
single-threaded run. -/
def analyzeContent (fs : FS) (load : String → Option (List (String × Option Nat)))
    (split : List (String × Option Nat) → List (String × Option Nat))
    (now : Nat) (baseDir : String) (st : AnalyzerState)
    (pdfPath : Option String) (query : String) : AnalysisOutcome × AnalyzerState :=
  match resolvePdfPath fs baseDir pdfPath with
  | none => (.err "No PDF file found", st)
  | some resolved =>
    let cacheKey := fileCacheKey fs resolved
    let queryCacheKey := (cacheKey, query)
    match alookup queryCacheKey st.analysis_cache with
    | some cached =>
      if isCacheValid fs resolved cacheKey then (.ok cached, st)
      else
        analyzeCompute fs load split now resolved queryCacheKey query
          { st with analysis_cache :=
              st.analysis_cache.filter (fun e => !(e.1.1 == cacheKey)) }
    | none => analyzeCompute fs load split now resolved queryCacheKey query st

/-! ## Invariants and spec-side definitions -/

/-- Well-formed chunk list: indices are the contiguous range `0..N-1` in
output order and every `total_chunks` equals `N`. -/
def ChunkListWf (docs : List Doc) : Prop :=
  docs.map Doc.chunk_index = List.range docs.length ∧
  ∀ d ∈ docs, d.total_chunks = docs.length

/-- Every cached chunk list is well-formed. -/
def DocCacheWf (st : AnalyzerState) : Prop :=
  ∀ e ∈ st.documents_cache, ChunkListWf e.2

/-- Every cached analysis has status `"completed"` (only complete analyses are
ever stored; error outcomes are returned without being cached). -/
def AnCacheWf (st : AnalyzerState) : Prop :=
  ∀ e ∈ st.analysis_cache, e.2.analysis_status = "completed"

/-- The section list as the spec words it: filter the first 10 chunks in order
down to those longer than 200 characters, then emit index, 200-character
preview and original length for each. -/
def specSections (documents : List Doc) : List SectionInfo :=
  ((documents.take 10).enum.filter (fun id => 200 < id.2.page_content.length)).map
    (fun id =>
      { chunk_index := id.1
        page := id.2.page
        preview := strTake id.2.page_content 200 ++ "..."
        length := id.2.page_content.length })

/-- Rebuild a full text from a chunk list and per-boundary overlap widths:
each next chunk must start with the stated overlap, which must equal the
accumulated text's suffix, and contributes its remainder. -/
def overlapBuild (acc : String) : List String → List Nat → Option String
  | [], [] => some acc
  | c :: cs, o :: os =>
      if decide (o ≤ 200) && decide (c.length ≤ 1000) && decide (o ≤ c.length) &&
         endsWithB acc (strTake c o)
      then overlapBuild (acc ++ strDrop c o) cs os
      else none
  | _, _ => none

/-- Modelled from the spec: the document chunker
(`RecursiveCharacterTextSplitter`, a third-party component not under `src/`).
Spec 4.1: chunks are at most 1000 characters, adjacent chunks share an overlap
of at most 200 characters, and the chunks collectively cover the full text
(concatenating the chunks minus the overlap regions reproduces it).
`specChunking full chunks overlaps` checks that `chunks` is such a chunking of
`full` with the given overlap widths. -/
def specChunking (fullText : String) (chunks : List String) (overlaps : List Nat) :
    Bool :=
  match chunks with
  | [] => false
  | c :: cs => decide (c.length ≤ 1000) && (overlapBuild c cs overlaps == some fullText)

/-- Extract the analysis from an `ok` outcome (placeholder on `err`). -/
def okValue : AnalysisOutcome → AnalysisResult
  | .ok r => r
  | .err m =>
    { source_file := m, metadata := .err m, total_chunks := 0,
      content_summary := [], extracted_sections := [], analysis_status := m,
      query_analysis := none }

/-! ## Concrete inputs used by witnesses and counterexamples -/

/-- Filler of 600 `z` characters. -/
def padZ : String := String.mk (List.replicate 600 'z')

/-- Filler of 400 `q` characters. -/
def padQ : String := String.mk (List.replicate 400 'q')

/-- First chunk of the overlap counterexample: 614 characters ending in
`" architecture "`. -/
def chunkA : String := padZ ++ " architecture "

/-- Second chunk of the overlap counterexample: repeats the last 100
characters of `chunkA` (which contain one `architecture`) and then carries
three more occurrences. -/
def chunkB : String :=
  String.mk (List.replicate 86 'z') ++ " architecture " ++
    "architecture architecture architecture " ++ padQ

/-- The full text covered by `[chunkA, chunkB]` with a 100-character overlap:
1053 characters (so the 1000-character splitter must split it), containing
`architecture` exactly 4 times, one of them inside the overlap region. -/
def c2full : String := chunkA ++ strDrop chunkB 100

/-- A short single-chunk text containing `architecture` exactly 4 times. -/
def c2short : String :=
  "architecture architecture architecture architecture"

/-- A file system holding `./models/a.pdf` with modification time 1. -/
def fsV1 : FS :=
  { dirExists := fun d => d == "./models"
    mtime := fun p => if p = "./models/a.pdf" then some 1 else none
    size := fun _ => 7
    listing := fun _ => [["a.pdf"]] }

/-- The same file system after the file's modification time changed to 2. -/
def fsV2 : FS :=
  { dirExists := fun d => d == "./models"
    mtime := fun p => if p = "./models/a.pdf" then some 2 else none
    size := fun _ => 7
    listing := fun _ => [["a.pdf"]] }

/-- Loader oracle for the original file content. -/
def loadA : String → Option (List (String × Option Nat)) :=
  fun p => if p = "./models/a.pdf" then some [("alpha text", some 0)] else none

/-- Loader oracle for the rewritten file content. -/
def loadB : String → Option (List (String × Option Nat)) :=
  fun p => if p = "./models/a.pdf" then some [("beta text", some 0)] else none

/-- Loader oracle that always raises (models an unparsable document). -/
def loadFail : String → Option (List (String × Option Nat)) :=
  fun _ => none

/-- Caches after one full analysis of `./models/a.pdf` at modification time 1:
one chunk-cache entry and one analysis-cache entry, both keyed by mtime 1. -/
def c1state : AnalyzerState :=
  (analyzeContent fsV1 loadA id 0 "./models" initState (some "./models/a.pdf") "").2

/-- `process_pdf` re-run after the external mtime change. -/
def c1pp2 : List Doc × AnalyzerState := processPdf fsV2 loadB id c1state "./models/a.pdf"

/-- `analyze_content` re-run after the external mtime change. -/
def c1out3 : AnalysisOutcome × AnalyzerState :=
  analyzeContent fsV2 loadB id 1 "./models" c1pp2.2 (some "./models/a.pdf") ""

/-- First full analysis used by the cache-idempotence witness. -/
def c3out : AnalysisOutcome × AnalyzerState :=
  analyzeContent fsV1 loadA id 0 "./models" initState (some "./models/a.pdf") ""

/-- Directory with files `report.pdf` and `report_v2.pdf` (spec 8,
resolution tie-break example). -/
def fsEx : FS :=
  { dirExists := fun d => d == "d"
    mtime := fun _ => none
    size := fun _ => 0
    listing := fun _ => [["report.pdf"], ["report_v2.pdf"]] }

/-- A file system whose search directory does not exist. -/
def fsAbsent : FS :=
  { dirExists := fun _ => false
    mtime := fun _ => none
    size := fun _ => 0
    listing := fun _ => [] }

/-- A directory that exists but holds no `.pdf` files. -/
def fsNoPdf : FS :=
  { dirExists := fun _ => true
    mtime := fun _ => none
    size := fun _ => 0
    listing := fun _ => [["notes.txt"], ["readme.md"]] }

/-- A directory with one top-level PDF, one other file and one nested PDF. -/
def fsTop : FS :=
  { dirExists := fun _ => true
    mtime := fun _ => none
    size := fun _ => 0
    listing := fun _ => [["a.pdf"], ["b.txt"], ["sub", "c.pdf"]] }

/-- A 201-character chunk (long enough for section extraction). -/
def longDoc : Doc :=
  { page_content := String.mk (List.replicate 201 'a')
    source_file := "f", chunk_index := 0, total_chunks := 2, page := none }

/-- A short chunk (filtered out by section extraction). -/
def shortDoc : Doc :=
  { page_content := "short", source_file := "f", chunk_index := 1,
    total_chunks := 2, page := none }

/-! ## Dictionary lemmas -/

theorem alookup_eq_some_mem {κ ν : Type} [DecidableEq κ] {k : κ} {v : ν} :
    ∀ {l : List (κ × ν)}, alookup k l = some v → (k, v) ∈ l := by
  intro l
  induction l with
  | nil => intro h; simp [alookup] at h
  | cons e t ih =>
    intro h
    rw [alookup] at h
    by_cases he : e.1 = k
    · rw [if_pos he] at h
      injection h with h2
      refine List.mem_cons.mpr (Or.inl ?_)
      cases e
      simp_all
    · rw [if_neg he] at h
      exact List.mem_cons_of_mem _ (ih h)

theorem alookup_ainsert_self {κ ν : Type} [DecidableEq κ] (k : κ) (v : ν)
    (l : List (κ × ν)) : alookup k (ainsert k v l) = some v := by
  rw [ainsert]
  by_cases hp : (alookup k l).isSome
  · simp only [hp, if_true]
    induction l with
    | nil => simp [alookup] at hp
    | cons e t ih =>
      rw [alookup] at hp
      by_cases he : e.1 = k
      · simp [he, alookup]
      · simp only [he, if_false] at hp
        simpa [alookup, he] using ih hp
  · simp only [hp, if_false]
    induction l with
    | nil => simp [alookup]
    | cons e t ih =>
      rw [alookup] at hp
      by_cases he : e.1 = k
      · simp [he] at hp
      · simpa [alookup, he] using ih (by simpa [he] using hp)

theorem mem_ainsert {κ ν : Type} [DecidableEq κ] {e : κ × ν} {k : κ} {v : ν}
    {l : List (κ × ν)} (h : e ∈ ainsert k v l) : e = (k, v) ∨ e ∈ l := by
  rw [ainsert] at h
  by_cases hp : (alookup k l).isSome
  · simp only [hp, if_true] at h
    rcases List.mem_map.mp h with ⟨x, hx, hfx⟩
    by_cases hxk : x.1 = k
    · simp only [hxk, if_true] at hfx
      exact Or.inl hfx.symm
    · simp only [hxk, if_false] at hfx
      exact Or.inr (hfx ▸ hx)
  · simp only [hp, if_false] at h
    rcases List.mem_append.mp h with hl | hr
    · exact Or.inr hl
    · exact Or.inl (List.mem_singleton.mp hr)

/-! ## Classification lemmas -/

theorem classify_fold_sum (text : String) :
    ∀ (kws : List String) (acc : List KeywordMatch × Nat),
      (kws.foldl
        (fun (acc : List KeywordMatch × Nat) kw =>
          let count := pyCount text kw
          if count > 0 then (acc.1 ++ [⟨kw, count⟩], acc.2 + count) else acc)
        acc).2 = acc.2 + (kws.map (fun kw => pyCount text kw)).sum := by
  intro kws
  induction kws with
  | nil => intro acc; simp
  | cons kw t ih =>
    intro acc
    rw [List.foldl_cons, List.map_cons, List.sum_cons]
    by_cases hc : pyCount text kw > 0
    · simp only [hc, if_true]
      rw [ih]
      omega
    · have hz : pyCount text kw = 0 := by omega
      simp only [hc, if_false]
      rw [ih, hz]
      omega

theorem classifyCategory_relevance (text : String) (kws : List String) :
    (classifyCategory text kws).relevance_score =
      (kws.map (fun kw => pyCount text kw)).sum := by
  rw [classifyCategory]
  simpa using classify_fold_sum text kws ([], 0)

theorem classifyCategory_confidence (text : String) (kws : List String) :
    (classifyCategory text kws).confidence =
      confidenceOf (classifyCategory text kws).relevance_score := rfl

/-! ## Chunk-annotation lemmas -/

theorem annotateChunks_wf (path : String) (raw : List (String × Option Nat)) :
    ChunkListWf (annotateChunks path raw) := by
  constructor
  · rw [annotateChunks, List.map_map, List.length_map, List.enum_length]
    have : (Doc.chunk_index ∘ fun ic : Nat × (String × Option Nat) =>
        ({ page_content := ic.2.1, source_file := path, chunk_index := ic.1,
           total_chunks := raw.length, page := ic.2.2 } : Doc)) = Prod.fst := by
      funext ic; rfl
    rw [this, List.enum_map_fst]
  · intro d hd
    rw [annotateChunks] at hd
    rcases List.mem_map.mp hd with ⟨ic, _, hic⟩
    rw [annotateChunks, List.length_map, List.enum_length]
    rw [← hic]

/-! ## Lexicographic-order lemmas -/

theorem lexLeB_total : ∀ a b : List Char, lexLeB a b = true ∨ lexLeB b a = true := by
  intro a
  induction a with
  | nil => intro b; left; rw [lexLeB]
  | cons x xs ih =>
    intro b
    cases b with
    | nil => right; rw [lexLeB]
    | cons y ys =>
      rcases Nat.lt_trichotomy x.toNat y.toNat with h | h | h
      · left; simp [lexLeB, h]
      · rcases ih ys with h2 | h2
        · left; simp [lexLeB, h, h2]
        · right; simp [lexLeB, h.symm, h2]
      · right; simp [lexLeB, h]

theorem lexLeB_trans : ∀ a b c : List Char,
    lexLeB a b = true → lexLeB b c = true → lexLeB a c = true := by
  intro a
  induction a with
  | nil => intro b c _ _; rw [lexLeB]
  | cons x xs ih =>
    intro b c hab hbc
    cases b with
    | nil => rw [lexLeB] at hab; exact absurd hab (by simp)
    | cons y ys =>
      cases c with
      | nil => rw [lexLeB] at hbc; exact absurd hbc (by simp)
      | cons z zs =>
        rw [lexLeB] at hab hbc ⊢
        simp only [Bool.or_eq_true, Bool.and_eq_true, decide_eq_true_eq] at hab hbc ⊢
        rcases hab with h1 | ⟨h1, h1r⟩ <;> rcases hbc with h2 | ⟨h2, h2r⟩
        · exact Or.inl (Nat.lt_trans h1 h2)
        · exact Or.inl (h2 ▸ h1)
        · exact Or.inl (h1 ▸ h2)
        · exact Or.inr ⟨h1.trans h2, ih ys zs h1r h2r⟩

/-! ## Glob-pattern lemmas -/

theorem matchTop_imp_matchRec {comps : List String}
    (h : matchTopPdf comps = true) : matchRecursivePdf comps = true := by
  rw [matchTopPdf] at h
  rw [matchRecursivePdf]
  simp only [Bool.and_eq_true, beq_iff_eq] at h
  obtain ⟨⟨hlen, hhid⟩, hpdf⟩ := h
  cases comps with
  | nil => simp at hlen
  | cons a t =>
    cases t with
    | nil => simp_all
    | cons b t2 => simp at hlen

/-! ## Claim theorems -/

set_option maxRecDepth 100000

/-- Claim C1, code evidence: after caching both the chunk list and an analysis
for `./models/a.pdf` at modification time 1, and then changing the file's
modification time to 2, the next `process_pdf` and `analyze_content` calls do
recompute (the returned chunks come from the new loader content and the
analysis carries freshly extracted metadata), but the stale entries keyed by
the old `(path, mtime)` digest are NOT evicted: both tables still contain them
and grow to two entries, and the new key differs from the old one.  This
refutes the eviction half of the claim: the lookup uses the freshly computed
key, so the eviction branch never sees the stale entry. -/
theorem c1_stale_entry_not_evicted :
    c1pp2.1.map Doc.page_content = ["beta text"] ∧
    (alookup "./models/a.pdf_1" c1pp2.2.documents_cache).isSome = true ∧
    c1pp2.2.documents_cache.length = 2 ∧
    (okValue c1out3.1).metadata = .ok "./models/a.pdf" 7 1 1 (some "beta text") ∧
    (alookup ("./models/a.pdf_1", "") c1out3.2.analysis_cache).isSome = true ∧
    c1out3.2.analysis_cache.length = 2 ∧
    fileCacheKey fsV2 "./models/a.pdf" ≠ "./models/a.pdf_1" :=
  ⟨by decide, by decide, by decide, by decide, by decide, by decide, by decide⟩

/-- Claim C2 (amended): for every document and category, the relevance score
equals the sum over the category's keywords of the non-overlapping occurrence
counts in the lowercased space-joined concatenation of the chunk contents;
for a single-chunk document containing `architecture` exactly 4 times and no
other architecture keyword, the architecture relevance score is 4. -/
theorem c2_relevance_score_amended (chunks : List String) (kws : List String) :
    (classifyCategory (contentTextOf chunks) kws).relevance_score =
      (kws.map (fun kw => pyCount (contentTextOf chunks) kw)).sum ∧
    (alookup "architecture" (categories.map (fun ck =>
        (ck.1, classifyCategory (contentTextOf [c2short]) ck.2)))).map
      CategoryScore.relevance_score = some (pyCount c2short "architecture") ∧
    pyCount c2short "architecture" = 4 :=
  ⟨classifyCategory_relevance _ _, by decide, by decide⟩

/-- Counterexample to claim C2 as stated: `[chunkA, chunkB]` is a valid
chunking (spec 4.1: chunks at most 1000 characters, adjacent overlap of at
most 200 characters) of a 1053-character text containing `architecture`
exactly 4 times, yet the architecture relevance score computed by
`analyze_content` over these chunks is 5, not 4: the occurrence inside the
100-character overlap is counted once per chunk, so the score does not equal
the whole-corpus frequency of the full extracted text. -/
theorem c2_whole_corpus_counterexample :
    specChunking c2full [chunkA, chunkB] [100] = true ∧
    pyCount c2full "architecture" = 4 ∧
    (alookup "architecture" (categories.map (fun ck =>
        (ck.1, classifyCategory (contentTextOf [chunkA, chunkB]) ck.2)))).map
      CategoryScore.relevance_score = some 5 ∧
    (alookup "architecture" (categories.map (fun ck =>
        (ck.1, classifyCategory (contentTextOf [chunkA, chunkB]) ck.2)))).map
      CategoryScore.relevance_score ≠ some (pyCount c2full "architecture") :=
  ⟨by decide, by decide, by decide, by decide⟩

/-- Claim C5: every category score's confidence equals
`min(relevance_score / 10.0, 1.0)`; it is exactly 1 for any relevance score of
at least 10, exactly 0 for relevance score 0, monotone non-decreasing in the
relevance score, and always within [0, 1]. -/
theorem c5_confidence_normalization (text : String) (kws : List String)
    (s t u : Nat) (hst : s ≤ t) (hu : 10 ≤ u) :
    (classifyCategory text kws).confidence =
      min (((classifyCategory text kws).relevance_score : ℚ) / 10) 1 ∧
    confidenceOf u = 1 ∧
    confidenceOf 0 = 0 ∧
    confidenceOf s ≤ confidenceOf t ∧
    0 ≤ confidenceOf s ∧ confidenceOf s ≤ 1 := by
  refine ⟨rfl, ?_, ?_, ?_, ?_, ?_⟩
  · have h1 : (1 : ℚ) ≤ (u : ℚ) / 10 := by
      rw [le_div_iff₀ (by norm_num : (0 : ℚ) < 10)]
      norm_num
      exact_mod_cast hu
    rw [confidenceOf]
    exact min_eq_right h1
  · norm_num [confidenceOf]
  · rw [confidenceOf, confidenceOf]
    refine min_le_min ?_ le_rfl
    refine (div_le_div_iff_of_pos_right (by norm_num : (0 : ℚ) < 10)).mpr ?_
    exact_mod_cast hst
  · rw [confidenceOf]
    exact le_min (by positivity) (by norm_num)
  · rw [confidenceOf]
    exact min_le_right _ _

/-- Witness for C5 at concrete relevance scores 3 ≤ 12, saturation input 11
and a concrete classification. -/
theorem c5_confidence_normalization_witness :
    ((3 : Nat) ≤ 12 ∧ (10 : Nat) ≤ 11) ∧
    ((classifyCategory "model text" ["model"]).confidence =
      min (((classifyCategory "model text" ["model"]).relevance_score : ℚ) / 10) 1 ∧
     confidenceOf 11 = 1 ∧
     confidenceOf 0 = 0 ∧
     confidenceOf 3 ≤ confidenceOf 12 ∧
     0 ≤ confidenceOf 3 ∧ confidenceOf 3 ≤ 1) :=
  ⟨⟨by decide, by decide⟩,
   c5_confidence_normalization "model text" ["model"] 3 12 11 (by decide) (by decide)⟩

theorem filterMap_ite_eq_map_filter {α β : Type} (p : α → Prop) [DecidablePred p]
    (f : α → β) (l : List α) :
    l.filterMap (fun a => if p a then some (f a) else none) =
      (l.filter (fun a => decide (p a))).map f := by
  induction l with
  | nil => rfl
  | cons a t ih =>
    by_cases hp : p a <;> simp [List.filterMap_cons, List.filter_cons, hp, ih]

theorem enum_pairwise_lt (l : List Doc) :
    List.Pairwise (fun a b : Nat × Doc => a.1 < b.1) l.enum := by
  have h := List.pairwise_lt_range l.length
  rw [← List.enum_map_fst] at h
  exact List.pairwise_map.mp h

/-- Claim C8: `extracted_sections` walks only the first 10 chunks in order,
keeps exactly those whose content exceeds 200 characters, and emits for each
kept chunk its index, the 200-character preview of its content, and the
original length; so the list has at most 10 entries and is ordered by chunk
index. -/
theorem c8_extracted_sections (documents : List Doc) :
    extractSections documents = specSections documents ∧
    (extractSections documents).length ≤ 10 ∧
    List.Pairwise (fun a b => a.chunk_index < b.chunk_index)
      (extractSections documents) ∧
    (∀ s ∈ extractSections documents,
       ∃ h : s.chunk_index < documents.length,
         s.chunk_index < 10 ∧
         200 < (documents.get ⟨s.chunk_index, h⟩).page_content.length ∧
         s.preview = strTake (documents.get ⟨s.chunk_index, h⟩).page_content 200 ++ "..." ∧
         s.length = (documents.get ⟨s.chunk_index, h⟩).page_content.length ∧
         s.page = (documents.get ⟨s.chunk_index, h⟩).page) ∧
    (∀ i, ∀ h : i < documents.length, i < 10 →
       200 < (documents.get ⟨i, h⟩).page_content.length →
       ∃ s ∈ extractSections documents, s.chunk_index = i) := by
  refine ⟨?_, ?_, ?_, ?_, ?_⟩
  · rw [extractSections, specSections]
    exact filterMap_ite_eq_map_filter _ _ _
  · rw [extractSections]
    calc (List.filterMap _ (documents.take 10).enum).length
        ≤ (documents.take 10).enum.length := List.length_filterMap_le _ _
      _ = (documents.take 10).length := List.enum_length
      _ ≤ 10 := by rw [List.length_take]; exact min_le_left _ _
  · rw [extractSections, filterMap_ite_eq_map_filter]
    refine List.pairwise_map.mpr ?_
    exact List.Pairwise.sublist (List.filter_sublist _)
      (enum_pairwise_lt (documents.take 10))
  · intro s hs
    rw [extractSections] at hs
    rcases List.mem_filterMap.mp hs with ⟨a, ha, hfa⟩
    by_cases hp : 200 < a.2.page_content.length
    · rw [if_pos hp] at hfa
      injection hfa with hfa
      subst hfa
      have hmem := List.mem_enum_iff_getElem?.mp ha
      rw [List.getElem?_take] at hmem
      by_cases h10 : a.1 < 10
      · rw [if_pos h10] at hmem
        rcases List.getElem?_eq_some.mp hmem with ⟨hlt, hget⟩
        refine ⟨hlt, h10, ?_, ?_, ?_, ?_⟩ <;> simp [hget, hp]
      · rw [if_neg h10] at hmem
        exact absurd hmem (by simp)
    · rw [if_neg hp] at hfa
      exact absurd hfa (by simp)
  · intro i h h10 hlen
    refine ⟨{ chunk_index := i, page := (documents.get ⟨i, h⟩).page,
              preview := strTake (documents.get ⟨i, h⟩).page_content 200 ++ "...",
              length := (documents.get ⟨i, h⟩).page_content.length }, ?_, rfl⟩
    rw [extractSections]
    refine List.mem_filterMap.mpr ⟨(i, documents.get ⟨i, h⟩), ?_, ?_⟩
    · refine List.mem_enum_iff_getElem?.mpr ?_
      rw [List.getElem?_take, if_pos h10]
      simp [List.getElem?_eq_getElem h]
    · rw [if_pos (by simpa using hlen)]

/-- Witness for C8: on a two-chunk document whose first chunk has 201
characters, chunk 0 qualifies and yields a section entry. -/
theorem c8_extracted_sections_witness :
    ((0 : Nat) < 2 ∧ (0 : Nat) < 10 ∧
      200 < ([longDoc, shortDoc].get ⟨0, by decide⟩).page_content.length) ∧
    ∃ s ∈ extractSections [longDoc, shortDoc], s.chunk_index = 0 := by
  refine ⟨⟨by decide, by decide, by decide⟩, ?_⟩
  exact (c8_extracted_sections [longDoc, shortDoc]).2.2.2.2 0 (by decide) (by decide)
    (by decide)

/-- Claim C6: resolution proceeds in strict tier order.  An absent or empty
identifier yields the first element of the sorted file list (or none when that
list is empty, since `head?` of the empty list is `none` and each tier's
`find?` over the empty list is `none`); otherwise the first exact filename
match, then the first case-insensitive filename-substring match, then the
first case-insensitive path-substring match, and `none` when no tier
matches. -/
theorem c6_resolution_tiers (fs : FS) (dir ident : String) (hne : ident ≠ "") :
    autoFindPdf fs dir none = (findPdfFiles fs dir).head? ∧
    autoFindPdf fs dir (some "") = (findPdfFiles fs dir).head? ∧
    autoFindPdf fs dir (some ident) =
      (((findPdfFiles fs dir).find? (fun p => basename p == ident)).orElse (fun _ =>
        (((findPdfFiles fs dir).find? (fun p =>
            substrB (lowerStr ident) (lowerStr (basename p)))).orElse (fun _ =>
          (findPdfFiles fs dir).find? (fun p =>
            substrB (lowerStr ident) (lowerStr p)))))) := by
  cases hfe : (findPdfFiles fs dir).isEmpty with
  | true =>
    have hnil : findPdfFiles fs dir = [] := List.isEmpty_iff.mp hfe
    refine ⟨?_, ?_, ?_⟩ <;> simp [autoFindPdf, hnil, Option.orElse]
  | false =>
    refine ⟨?_, ?_, ?_⟩
    · simp [autoFindPdf, hfe]
    · simp [autoFindPdf, hfe]
    · simp only [autoFindPdf, hfe, Bool.false_eq_true, if_false, Option.getD_some,
        if_neg hne]
      cases h1 : (findPdfFiles fs dir).find? (fun p => basename p == ident) with
      | some p => simp [Option.orElse]
      | none =>
        cases h2 : (findPdfFiles fs dir).find? (fun p =>
            substrB (lowerStr ident) (lowerStr (basename p))) with
        | some p => simp [Option.orElse]
        | none => simp [Option.orElse]

/-- Witness for C6, the spec's tie-break example: with `report.pdf` and
`report_v2.pdf` present, resolving `report.pdf` returns the exact match, not
the substring match `report_v2.pdf`. -/
theorem c6_resolution_tiers_witness :
    ("report.pdf" ≠ "") ∧
    autoFindPdf fsEx "d" (some "report.pdf") = some "d/report.pdf" := by
  refine ⟨by decide, ?_⟩
  rw [(c6_resolution_tiers fsEx "d" "report.pdf" (by decide)).2.2]
  decide

/-- Claim C9: `find_pdf_files` returns an empty list (not an error) when the
search directory does not exist or contains no file matching the PDF pattern,
and its output is always sorted in code-point lexicographic path order. -/
theorem c9_find_documents (fs : FS) (dir : String) :
    (fs.dirExists dir = false → findPdfFiles fs dir = []) ∧
    ((∀ c ∈ fs.listing dir, matchRecursivePdf c = false) →
      findPdfFiles fs dir = []) ∧
    List.Sorted (fun a b => strLeB a b = true) (findPdfFiles fs dir) := by
  have hsorted : ∀ l : List String,
      List.Sorted (fun a b => strLeB a b = true) (sortStrings l) := by
    intro l
    haveI : IsTotal String (fun a b => strLeB a b = true) :=
      ⟨fun a b => lexLeB_total a.data b.data⟩
    haveI : IsTrans String (fun a b => strLeB a b = true) :=
      ⟨fun a b c hab hbc => lexLeB_trans a.data b.data c.data hab hbc⟩
    exact List.sorted_insertionSort _ l
  refine ⟨?_, ?_, ?_⟩
  · intro h
    simp [findPdfFiles, h]
  · intro h
    rw [findPdfFiles]
    cases hd : fs.dirExists dir
    · simp
    · have h1 : (fs.listing dir).filter matchRecursivePdf = [] := by
        rw [List.filter_eq_nil_iff]
        intro a ha
        simp [h a ha]
      have h2 : (fs.listing dir).filter matchTopPdf = [] := by
        rw [List.filter_eq_nil_iff]
        intro a ha hTop
        have hca := h a ha
        rw [matchTop_imp_matchRec hTop] at hca
        exact Bool.true_eq_false.mp hca
      simp [h1, h2, sortStrings]
  · rw [findPdfFiles]
    cases hd : fs.dirExists dir
    · simp
    · simpa using hsorted _

/-- Witness for C9: an absent directory and a directory without PDF files
both give the empty list. -/
theorem c9_find_documents_witness :
    (fsAbsent.dirExists "m" = false) ∧ findPdfFiles fsAbsent "m" = [] ∧
    (∀ c ∈ fsNoPdf.listing "d", matchRecursivePdf c = false) ∧
    findPdfFiles fsNoPdf "d" = [] :=
  ⟨by decide, (c9_find_documents fsAbsent "m").1 (by decide), by decide,
   (c9_find_documents fsNoPdf "d").2.1 (by decide)⟩

theorem count_map_eq_countP (target : String) (f : List String → String)
    (l : List (List String)) :
    (l.map f).count target = l.countP (fun c => f c == target) := by
  rw [List.count_eq_countP, List.countP_map]
  rfl

/-- Claim C10: a non-hidden top-level `.pdf` file (appearing once in the
listing, with no other entry mapping to its path) occurs exactly twice in the
result of `find_pdf_files`, because it matches both the recursive and the
non-recursive glob pattern; the returned list is not duplicate-free. -/
theorem c10_toplevel_duplicate (fs : FS) (dir name : String)
    (hdir : fs.dirExists dir = true)
    (hmem : [name] ∈ fs.listing dir)
    (huniq : (fs.listing dir).countP
      (fun c => globPath dir c == globPath dir [name]) = 1)
    (hhid : startsWithB name "." = false)
    (hpdf : endsWithB name ".pdf" = true) :
    (findPdfFiles fs dir).count (globPath dir [name]) = 2 := by
  have hmRec : matchRecursivePdf [name] = true := by
    simp [matchRecursivePdf, hiddenFree, hhid, hpdf]
  have hmTop : matchTopPdf [name] = true := by
    simp [matchTopPdf, hiddenFree, hhid, hpdf]
  have key : ∀ pm : List String → Bool, pm [name] = true →
      (((fs.listing dir).filter pm).map (globPath dir)).count
        (globPath dir [name]) = 1 := by
    intro pm hpm
    rw [count_map_eq_countP, List.countP_filter]
    refine Nat.le_antisymm ?_ ?_
    · calc List.countP (fun c => (globPath dir c == globPath dir [name]) && pm c)
            (fs.listing dir)
          ≤ List.countP (fun c => globPath dir c == globPath dir [name])
            (fs.listing dir) := by
            refine List.countP_mono_left (fun x _ hx => ?_)
            simp only [Bool.and_eq_true] at hx
            exact hx.1
        _ = 1 := huniq
    · exact List.countP_pos_iff.mpr ⟨[name], hmem, by simp [hpm]⟩
  rw [findPdfFiles]
  simp only [hdir, Bool.not_true, Bool.false_eq_true, if_false]
  rw [sortStrings, (List.perm_insertionSort _ _).count_eq,
    List.count_append, key _ hmRec, key _ hmTop]

/-- Witness for C10: in a directory with top-level `a.pdf`, a top-level
`b.txt` and a nested `sub/c.pdf`, the path of `a.pdf` is returned twice. -/
theorem c10_toplevel_duplicate_witness :
    (fsTop.dirExists "d" = true ∧ [("a.pdf" : String)] ∈ fsTop.listing "d" ∧
     (fsTop.listing "d").countP
       (fun c => globPath "d" c == globPath "d" ["a.pdf"]) = 1 ∧
     startsWithB "a.pdf" "." = false ∧ endsWithB "a.pdf" ".pdf" = true) ∧
    (findPdfFiles fsTop "d").count (globPath "d" ["a.pdf"]) = 2 :=
  ⟨⟨by decide, by decide, by decide, by decide, by decide⟩,
   c10_toplevel_duplicate fsTop "d" "a.pdf" (by decide) (by decide) (by decide)
     (by decide) (by decide)⟩

/-- Claim C7: whenever every cached chunk list is well-formed, the chunk list
`process_pdf` returns has indices forming the contiguous range `0..N-1` in
output order with every `total_chunks` equal to `N`, and the cache stays
well-formed (freshly computed chunk lists get the annotation loop's indices,
cached ones were stored in that shape). -/
theorem c7_chunk_indices (fs : FS)
    (load : String → Option (List (String × Option Nat)))
    (split : List (String × Option Nat) → List (String × Option Nat))
    (st : AnalyzerState) (path : String) (h : DocCacheWf st) :
    ChunkListWf (processPdf fs load split st path).1 ∧
    DocCacheWf (processPdf fs load split st path).2 := by
  have hv : isCacheValid fs path (fileCacheKey fs path) = true := by
    simp [isCacheValid]
  simp only [processPdf]
  cases hl : alookup (fileCacheKey fs path) st.documents_cache with
  | some cached =>
    simp only [hv, if_true]
    exact ⟨h _ (alookup_eq_some_mem hl), h⟩
  | none =>
    simp only [processCompute]
    cases hload : load path with
    | none => exact ⟨⟨by simp, by simp⟩, h⟩
    | some raw =>
      refine ⟨annotateChunks_wf _ _, ?_⟩
      intro e he
      simp only at he
      rcases mem_ainsert he with he1 | he2
      · rw [he1]
        exact annotateChunks_wf _ _
      · exact h _ he2

/-- Witness for C7: a fresh analyzer (empty caches, trivially well-formed)
processing `./models/a.pdf`. -/
theorem c7_chunk_indices_witness :
    DocCacheWf initState ∧
    ChunkListWf (processPdf fsV1 loadA id initState "./models/a.pdf").1 ∧
    DocCacheWf (processPdf fsV1 loadA id initState "./models/a.pdf").2 := by
  have h0 : DocCacheWf initState := by
    intro e he
    simp [initState] at he
  exact ⟨h0, (c7_chunk_indices fsV1 loadA id initState "./models/a.pdf" h0).1,
    (c7_chunk_indices fsV1 loadA id initState "./models/a.pdf" h0).2⟩

/-- Claim C4: `analyze_content` never lets a failure escape: for every input
its outcome is either an error value or a complete analysis (status
`"completed"`), an unresolvable identifier yields the error value
`"No PDF file found"`, and a resolvable path whose document cannot be loaded
(with no cached entry to fall back on) yields the error value
`"Processing failed"` — never a partial analysis. -/
theorem c4_error_boundary (fs : FS)
    (load : String → Option (List (String × Option Nat)))
    (split : List (String × Option Nat) → List (String × Option Nat))
    (now : Nat) (baseDir : String) (st : AnalyzerState)
    (pdfPath : Option String) (query : String) (h : AnCacheWf st) :
    ((∃ m, (analyzeContent fs load split now baseDir st pdfPath query).1 = .err m) ∨
     (∃ r, (analyzeContent fs load split now baseDir st pdfPath query).1 = .ok r ∧
        r.analysis_status = "completed")) ∧
    (resolvePdfPath fs baseDir pdfPath = none →
      (analyzeContent fs load split now baseDir st pdfPath query).1 =
        .err "No PDF file found") ∧
    (∀ resolved, resolvePdfPath fs baseDir pdfPath = some resolved →
      load resolved = none →
      alookup (fileCacheKey fs resolved, query) st.analysis_cache = none →
      alookup (fileCacheKey fs resolved) st.documents_cache = none →
      (analyzeContent fs load split now baseDir st pdfPath query).1 =
        .err "Processing failed") := by
  cases hres : resolvePdfPath fs baseDir pdfPath with
  | none =>
    refine ⟨Or.inl ⟨"No PDF file found", ?_⟩, fun _ => ?_, fun resolved hr => ?_⟩
    · simp [analyzeContent, hres]
    · simp [analyzeContent, hres]
    · exact absurd hr (by simp)
  | some resolved =>
    refine ⟨?_, fun hnone => ?_, ?_⟩
    · cases hl : alookup (fileCacheKey fs resolved, query) st.analysis_cache with
      | some cached =>
        refine Or.inr ⟨cached, ?_, h _ (alookup_eq_some_mem hl)⟩
        simp [analyzeContent, hres, hl, isCacheValid]
      | none =>
        simp only [analyzeContent, hres, hl, analyzeCompute]
        rcases hpr : processPdf fs load split st resolved with ⟨docs, st2⟩
        dsimp only
        cases hde : docs.isEmpty with
        | true => exact Or.inl ⟨"Processing failed", by simp [hde]⟩
        | false =>
          refine Or.inr ⟨buildAnalysis resolved (extractMetadata fs load now resolved)
            docs query, ?_, rfl⟩
          simp [hde]
    · exact absurd hnone (by simp)
    · intro r hr hload hl1 hl2
      injection hr with hr
      subst hr
      simp only [analyzeContent, hres, hl1, analyzeCompute]
      simp only [processPdf, hl2, processCompute, hload]
      simp

/-- Witness for C4: a fresh analyzer on an unresolvable identifier returns the
not-found error value, and on a resolvable path whose loader raises returns
the processing-failure error value. -/
theorem c4_error_boundary_witness :
    AnCacheWf initState ∧
    (analyzeContent fsAbsent loadA id 0 "./models" initState
      (some "nope.pdf") "").1 = .err "No PDF file found" ∧
    (analyzeContent fsV1 loadFail id 0 "./models" initState
      (some "./models/a.pdf") "").1 = .err "Processing failed" := by
  have h0 : AnCacheWf initState := by
    intro e he
    simp [initState] at he
  refine ⟨h0, ?_, ?_⟩
  · exact (c4_error_boundary fsAbsent loadA id 0 "./models" initState
      (some "nope.pdf") "" h0).2.1 (by decide)
  · exact (c4_error_boundary fsV1 loadFail id 0 "./models" initState
      (some "./models/a.pdf") "" h0).2.2 "./models/a.pdf" (by decide) rfl rfl rfl

/-- Claim C3: if `analyze_content` succeeds, a second call with the same file
system (no modification), path argument and query returns exactly the same
analysis and leaves the caches untouched, and it does so for ANY loader,
splitter and clock — so the second call performs no re-chunking, no
re-classification and no metadata re-extraction: it is served entirely from
the analysis cache. -/
theorem c3_cache_idempotence (fs : FS)
    (load1 load2 : String → Option (List (String × Option Nat)))
    (split1 split2 : List (String × Option Nat) → List (String × Option Nat))
    (now1 now2 : Nat) (baseDir : String) (st : AnalyzerState)
    (pdfPath : Option String) (query : String) (r1 : AnalysisResult)
    (st1 : AnalyzerState)
    (h : analyzeContent fs load1 split1 now1 baseDir st pdfPath query =
      (.ok r1, st1)) :
    analyzeContent fs load2 split2 now2 baseDir st1 pdfPath query =
      (.ok r1, st1) := by
  cases hres : resolvePdfPath fs baseDir pdfPath with
  | none =>
    simp only [analyzeContent, hres] at h
    exact absurd h (by simp)
  | some resolved =>
    simp only [analyzeContent, hres] at h
    cases hl : alookup (fileCacheKey fs resolved, query) st.analysis_cache with
    | some cached =>
      rw [hl] at h
      simp only [isCacheValid, beq_self_eq_true, if_true] at h
      injection h with h1 h2
      injection h1 with h1
      subst h1
      subst h2
      simp only [analyzeContent, hres]
      rw [hl]
      simp [isCacheValid]
    | none =>
      rw [hl] at h
      simp only [analyzeCompute] at h
      rcases hpr : processPdf fs load1 split1 st resolved with ⟨docs, st2⟩
      rw [hpr] at h
      cases hde : docs.isEmpty with
      | true =>
        rw [hde] at h
        simp at h
      | false =>
        rw [hde] at h
        simp only [Bool.false_eq_true, if_false] at h
        injection h with h1 h2
        injection h1 with h1
        subst h1
        subst h2
        simp only [analyzeContent, hres]
        rw [alookup_ainsert_self]
        simp [isCacheValid]

/-- Witness for C3: the first analysis of `./models/a.pdf` succeeds, and the
second call — with a different loader, a different splitter and a different
clock — returns the identical result and state. -/
theorem c3_cache_idempotence_witness :
    analyzeContent fsV1 loadA id 0 "./models" initState
      (some "./models/a.pdf") "" = (.ok (okValue c3out.1), c3out.2) ∧
    analyzeContent fsV1 loadB (fun _ => []) 9 "./models" c3out.2
      (some "./models/a.pdf") "" = (.ok (okValue c3out.1), c3out.2) := by
  have h : analyzeContent fsV1 loadA id 0 "./models" initState
      (some "./models/a.pdf") "" = (.ok (okValue c3out.1), c3out.2) := rfl
  exact ⟨h, c3_cache_idempotence fsV1 loadA loadB id (fun _ => []) 0 9 "./models"
    initState (some "./models/a.pdf") "" (okValue c3out.1) c3out.2 h⟩

end AutoDRP

